import Mathlib

/-!
Verification of the shape-grid-art editor core (5×5 variant of `script.js`,
with the `part_001`/`part_004` variants where the corresponding behaviour
lives there).  Cells are modelled as `Option ShapeData` in a row-major list
of length `GRID_SIZE * GRID_SIZE`; the DOM-dataset storage of the source is
replaced by this value-level grid, as the read/write helpers
(`readCellData`/`writeCellData`) make the DOM behave like exactly such a
list.
-/

namespace ShapeGrid

/-- `const GRID_SIZE = 5` (script.js, part_001, part_004). -/
def GRID_SIZE : Nat := 5

/-- `const CELL_PX = 100` (script.js, part_001, part_004). -/
def CELL_PX : Nat := 100

/-- The per-shape record read and written by `readCellData`/`writeCellData`:
`{ shapeType, color, rotation, mirrorX, mirrorY }`. -/
structure ShapeData where
  shapeType : String
  color : String
  rotation : Nat
  mirrorX : Bool
  mirrorY : Bool
deriving DecidableEq, Repr

/-- A cell either holds a shape or is empty (`readCellData` returns `null`). -/
abbrev Cell := Option ShapeData

/-- The board: row-major list of `GRID_SIZE * GRID_SIZE` optional shapes
(the `cells` array, each entry read through `readCellData`). -/
abbrev Grid := List Cell

/-- A history snapshot: `cells.map(cell => data ? { ...data } : null)`. -/
abbrev Snapshot := List Cell

/-- The `history` array of snapshots. -/
abbrev History := List Snapshot

/-- Row-major index of a cell: `row * GRID_SIZE + col`. -/
def cellIndex (r c : Nat) : Nat := r * GRID_SIZE + c

/-- `readCellData(cells[cellIndex r c])` on the value-level grid.  An
out-of-range index reads as an empty cell (it cannot occur for board
coordinates). -/
def readCell (g : Grid) (r c : Nat) : Cell := (g.get? (cellIndex r c)).getD none

/-- `writeCellData(cells[cellIndex r c], v)` on the value-level grid
(`List.set` is a no-op out of range, as the source never goes out of range). -/
def writeCell (g : Grid) (r c : Nat) (v : Cell) : Grid := g.set (cellIndex r c) v

/-- The snapshot taken by `pushState`: a deep copy of every cell's data.  With
value semantics the per-cell `{ ...data }` spread copy is the identity. -/
def snapshot (g : Grid) : Snapshot := g

/-- `pushState()`: `history.push(snapshot); if (history.length > 100)
history.shift();` — append at the end, evict the oldest (front) entry when
the length would exceed 100. -/
def pushState (h : History) (g : Grid) : History :=
  let h2 := h ++ [snapshot g]
  if h2.length > 100 then h2.tail else h2

/-- `restoreState(snapshot)`: `cells.forEach((cell, i) => writeCellData(cell,
snapshot[i]))` — every cell of the board is overwritten with the snapshot's
entry at the same index (an out-of-range `snapshot[i]` reads as `undefined`,
which clears the cell). -/
def restoreState (g : Grid) (snap : Snapshot) : Grid :=
  (List.range g.length).map (fun i => (snap.get? i).getD none)

/-- The `undoBtn` click handler: `const last = history.pop(); if (!last)
return; restoreState(last);` — pop the most recent (last) snapshot and
restore it; on an empty stack, do nothing. -/
def undo (g : Grid) (h : History) : Grid × History :=
  match h.getLast? with
  | none => (g, h)
  | some last => (restoreState g last, h.dropLast)

/-- One planned move entry (`{ src..., dest..., data }` in the pointerup
handler's `plan` array): source coordinates, destination coordinates, and the
data being moved. -/
structure MoveEntry where
  srcRow : Nat
  srcCol : Nat
  destRow : Nat
  destCol : Nat
  data : ShapeData
deriving DecidableEq, Repr

/-- The plan-building loop of the grid `pointerup` handler (script.js lines
556–572; `planMove` in part_001): for each selected cell, skip it when empty,
otherwise compute `dest = cell + delta` and abort the whole move (`return`
before any mutation, modelled as `none`) as soon as one destination falls
outside `[0,GRID_SIZE)×[0,GRID_SIZE)`. -/
def planMove (g : Grid) (sel : List (Nat × Nat)) (dRow dCol : Int) :
    Option (List MoveEntry) :=
  match sel with
  | [] => some []
  | (r, c) :: rest =>
    match readCell g r c with
    | none => planMove g rest dRow dCol
    | some d =>
      let r2 : Int := (r : Int) + dRow
      let c2 : Int := (c : Int) + dCol
      if r2 < 0 ∨ c2 < 0 ∨ r2 ≥ (GRID_SIZE : Int) ∨ c2 ≥ (GRID_SIZE : Int) then
        none
      else
        match planMove g rest dRow dCol with
        | none => none
        | some tail => some (⟨r, c, r2.toNat, c2.toNat, d⟩ :: tail)

/-- `plan.forEach(({ src }) => writeCellData(src, null))` — clear every source
cell of the plan, in plan order. -/
def clearSources (g : Grid) (plan : List MoveEntry) : Grid :=
  plan.foldl (fun acc e => writeCell acc e.srcRow e.srcCol none) g

/-- `plan.forEach(({ dest, data }) => writeCellData(dest, data))` — write every
destination of the plan, in plan order (unconditional replacement). -/
def writeDests (g : Grid) (plan : List MoveEntry) : Grid :=
  plan.foldl (fun acc e => writeCell acc e.destRow e.destCol (some e.data)) g

/-- The grid effect of the `pointerup` drop handler (script.js lines 515–608):
a zero delta is a no-op, a plan aborted on bounds leaves the grid untouched,
and a successful plan clears all sources first and then writes all
destinations. -/
def moveOp (g : Grid) (sel : List (Nat × Nat)) (dRow dCol : Int) : Grid :=
  if dRow = 0 ∧ dCol = 0 then g
  else
    match planMove g sel dRow dCol with
    | none => g
    | some plan => writeDests (clearSources g plan) plan

/-- The mutation of the `rotateBtn` handler on the selected cell's data:
`data.rotation = (data.rotation + 90) % 360` (all other fields untouched). -/
def rotateData (d : ShapeData) : ShapeData :=
  { d with rotation := (d.rotation + 90) % 360 }

/-- The grid effect of one `rotateBtn` click on the selected cell (script.js
lines 403–413): read the cell, and when it holds data, write it back with the
rotation advanced (the handler is gated to a filled single selection, the
empty case does nothing). -/
def rotateOp (g : Grid) (r c : Nat) : Grid :=
  match readCell g r c with
  | none => g
  | some d => writeCell g r c (some (rotateData d))

/-- `applyToSelection(mutator)` of part_001 (lines 330–344) specialised to the
rotate case (lines 616–619): for every selected cell, in selection order,
read its data and, when present, write it back with
`d.rotation = (d.rotation + 90) % 360`.  There is no bounding-box fit check
and no cell is relocated. -/
def applyRotateToSelection (g : Grid) (sel : List (Nat × Nat)) : Grid :=
  sel.foldl
    (fun acc p =>
      match readCell acc p.1 p.2 with
      | none => acc
      | some d => writeCell acc p.1 p.2 (some (rotateData d)))
    g

/-- `getCenteredWindow(size)` of part_004 (lines 429–439): the centered
window's start is `floor((GRID_SIZE - size) / 2)` on each axis, the end is
exclusive. -/
structure Window where
  startRow : Nat
  startCol : Nat
  endRow : Nat
  endCol : Nat

def getCenteredWindow (size : Nat) : Window :=
  let startRow := (GRID_SIZE - size) / 2
  let startCol := (GRID_SIZE - size) / 2
  ⟨startRow, startCol, startRow + size, startCol + size⟩

/-- The `randomizeBtn` click handler of part_004 (lines 442–475), with the
random draws supplied as an oracle `draw`: `draw r c = some d` stands for
`Math.random() < FILL_PROB` succeeding at window cell `(r,c)` and the shape
fields being drawn as `d`; `draw r c = none` stands for the draw failing, in
which case the cell is not written.  The handler clears the entire board
first and then visits exactly the cells of the centered window. -/
def randomize (draw : Nat → Nat → Option ShapeData) (size : Nat) : Grid :=
  let cleared : Grid := List.replicate (GRID_SIZE * GRID_SIZE) none
  let w := getCenteredWindow size
  (List.range' w.startRow (w.endRow - w.startRow)).foldl
    (fun g r =>
      (List.range' w.startCol (w.endCol - w.startCol)).foldl
        (fun g2 c =>
          match draw r c with
          | some d => writeCell g2 r c (some d)
          | none => g2)
        g)
    cleared

/-- `countFilledCells()` (script.js lines 73–79): the number of cells holding
a shape. -/
def countFilledCells (g : Grid) : Nat :=
  g.foldl (fun n c => if c.isSome then n + 1 else n) 0

/-- The occupied bounds record of `findUsedBounds`. -/
structure Bounds where
  minRow : Nat
  maxRow : Nat
  minCol : Nat
  maxCol : Nat
deriving DecidableEq, Repr

/-- The occupied cells' coordinates in scan order, as visited by the
`cells.forEach` loops of `findUsedBounds` and the export handler. -/
def occupiedPositions (g : Grid) : List (Nat × Nat) :=
  (List.range (GRID_SIZE * GRID_SIZE)).filterMap fun i =>
    match g.get? i with
    | some (some _) => some (i / GRID_SIZE, i % GRID_SIZE)
    | _ => none

/-- `findUsedBounds()` (script.js lines 716–734): fold `Math.min`/`Math.max`
over the occupied cells' rows and columns.  The JS code starts from the
sentinels `Infinity`/`-Infinity` and the caller tests `minRow === Infinity`;
this embedding renders the sentinel state as `none`, so the fold starts a
real bounds record at the first occupied cell. -/
def findUsedBounds (g : Grid) : Option Bounds :=
  (occupiedPositions g).foldl
    (fun acc p =>
      match acc with
      | none => some ⟨p.1, p.1, p.2, p.2⟩
      | some b => some ⟨min b.minRow p.1, max b.maxRow p.1,
                        min b.minCol p.2, max b.maxCol p.2⟩)
    none

/-- `svgWidth = (maxCol - minCol + 1) * CELL_PX` (script.js line 646). -/
def svgWidth (b : Bounds) : Nat := (b.maxCol - b.minCol + 1) * CELL_PX

/-- `svgHeight = (maxRow - minRow + 1) * CELL_PX` (script.js line 647). -/
def svgHeight (b : Bounds) : Nat := (b.maxRow - b.minRow + 1) * CELL_PX

/-- The outcome of the `downloadBtn` click handler (script.js lines 637–647):
when no cell is occupied (`minRow === Infinity`) it alerts and returns
without producing a document, modelled as an `Except.error` carrying the
alert text; otherwise it produces a document with the declared canvas size. -/
def exportResult (g : Grid) : Except String (Nat × Nat) :=
  match findUsedBounds g with
  | none => Except.error "No artwork found! Place shapes before exporting."
  | some b => Except.ok (svgWidth b, svgHeight b)

/-- `cellFromPointer(clientX, clientY)` (script.js lines 619–634), over exact
rationals in place of IEEE doubles: subtract the grid rectangle's origin,
reject coordinates outside the rectangle, divide into `GRID_SIZE` columns and
rows with `Math.floor`, and convert the trailing `cells[idx] || null` lookup
into a range test on the computed index. -/
def cellFromPointer (clientX clientY rectLeft rectTop rectWidth rectHeight : ℚ) :
    Option Nat :=
  let x := clientX - rectLeft
  let y := clientY - rectTop
  if x < 0 ∨ y < 0 ∨ x > rectWidth ∨ y > rectHeight then none
  else
    let cellW := rectWidth / (GRID_SIZE : ℚ)
    let cellH := rectHeight / (GRID_SIZE : ℚ)
    let col : Int := ⌊x / cellW⌋
    let row : Int := ⌊y / cellH⌋
    let idx : Int := row * (GRID_SIZE : Int) + col
    if 0 ≤ idx ∧ idx < (GRID_SIZE : Int) * (GRID_SIZE : Int) then some idx.toNat
    else none

/-- The stamp-mode branch of `handleCellClick` (script.js lines 308–318):
the clicked cell's content becomes a fresh shape with rotation 0 and both
mirror flags off, regardless of prior content. -/
def stampOp (g : Grid) (r c : Nat) (shapeType color : String) : Grid :=
  writeCell g r c (some ⟨shapeType, color, 0, false, false⟩)

/-- The blue square stamped by the default tool state. -/
def blueSquare : ShapeData := ⟨"square", "#6396fc", 0, false, false⟩

/-- The initial board: all cells empty. -/
def emptyGrid : Grid := List.replicate (GRID_SIZE * GRID_SIZE) none

theorem length_writeCell (g : Grid) (r c : Nat) (v : Cell) :
    (writeCell g r c v).length = g.length := by
  simp [writeCell]

theorem cellIndex_inj {r c r' c' : Nat} (hc : c < GRID_SIZE) (hc' : c' < GRID_SIZE)
    (h : cellIndex r c = cellIndex r' c') : r = r' ∧ c = c' := by
  unfold cellIndex GRID_SIZE at *
  omega

theorem cellIndex_lt {r c : Nat} (hr : r < GRID_SIZE) (hc : c < GRID_SIZE) :
    cellIndex r c < GRID_SIZE * GRID_SIZE := by
  unfold cellIndex GRID_SIZE at *
  omega

theorem readCell_writeCell (g : Grid) {r c r' c' : Nat} (v : Cell)
    (hlen : g.length = GRID_SIZE * GRID_SIZE)
    (hr : r < GRID_SIZE) (hc : c < GRID_SIZE)
    (hr' : r' < GRID_SIZE) (hc' : c' < GRID_SIZE) :
    readCell (writeCell g r c v) r' c' =
      if r' = r ∧ c' = c then v else readCell g r' c' := by
  unfold readCell writeCell
  by_cases h : r' = r ∧ c' = c
  · obtain ⟨rfl, rfl⟩ := h
    rw [if_pos ⟨rfl, rfl⟩, List.get?_set_eq_of_lt _ (by rw [hlen]; exact cellIndex_lt hr hc)]
    rfl
  · have hne : cellIndex r c ≠ cellIndex r' c' := by
      intro hix
      obtain ⟨h1, h2⟩ := cellIndex_inj hc hc' hix
      exact h ⟨h1.symm, h2.symm⟩
    rw [if_neg h, List.get?_set_ne _ _ hne]

/-- The plan loop returns `none` (the handler `return`s before mutating
anything) as soon as one occupied member's destination is out of bounds. -/
theorem planMove_eq_none (g : Grid) (dRow dCol : Int) :
    ∀ sel : List (Nat × Nat),
      (∀ p ∈ sel, readCell g p.1 p.2 ≠ none) →
      (∃ p ∈ sel, (p.1 : Int) + dRow < 0 ∨ (p.2 : Int) + dCol < 0 ∨
        (p.1 : Int) + dRow ≥ (GRID_SIZE : Int) ∨ (p.2 : Int) + dCol ≥ (GRID_SIZE : Int)) →
      planMove g sel dRow dCol = none := by
  intro sel
  induction sel with
  | nil =>
    rintro _ ⟨p, hp, _⟩
    exact absurd hp (List.not_mem_nil p)
  | cons head rest ih =>
    rintro hocc ⟨p, hp, hoob⟩
    obtain ⟨r, c⟩ := head
    have hhead := hocc (r, c) (List.mem_cons_self _ _)
    obtain ⟨d, hd⟩ := Option.ne_none_iff_exists'.mp hhead
    rcases List.mem_cons.1 hp with heq | hmem
    · subst heq
      simp only [planMove, hd]
      rw [if_pos hoob]
    · have hrest : planMove g rest dRow dCol = none :=
        ih (fun q hq => hocc q (List.mem_cons_of_mem _ hq)) ⟨p, hmem, hoob⟩
      simp only [planMove, hd, hrest]
      split <;> rfl

/-- C1: for every selection of occupied cells and every drag delta, if at
least one member's destination falls outside the `GRID_SIZE × GRID_SIZE`
board, the move is rejected as a whole: no cell is cleared or written and
the resulting grid is (deep-)equal to the grid before the attempt. -/
theorem move_rejected_when_any_dest_out_of_bounds
    (g : Grid) (sel : List (Nat × Nat)) (dRow dCol : Int)
    (hocc : ∀ p ∈ sel, readCell g p.1 p.2 ≠ none)
    (hoob : ∃ p ∈ sel, (p.1 : Int) + dRow < 0 ∨ (p.2 : Int) + dCol < 0 ∨
      (p.1 : Int) + dRow ≥ (GRID_SIZE : Int) ∨ (p.2 : Int) + dCol ≥ (GRID_SIZE : Int)) :
    moveOp g sel dRow dCol = g := by
  unfold moveOp
  split
  · rfl
  · rw [planMove_eq_none g dRow dCol sel hocc hoob]

/-- Witness for C1: dragging the shape at the bottom-right corner one row
further down is rejected and leaves the grid unchanged. -/
theorem move_rejected_when_any_dest_out_of_bounds_witness :
    (∀ p ∈ [((4 : Nat), (4 : Nat))],
      readCell (writeCell emptyGrid 4 4 (some blueSquare)) p.1 p.2 ≠ none) ∧
    moveOp (writeCell emptyGrid 4 4 (some blueSquare)) [(4, 4)] 1 0 =
      writeCell emptyGrid 4 4 (some blueSquare) :=
  ⟨by decide,
   move_rejected_when_any_dest_out_of_bounds
     (writeCell emptyGrid 4 4 (some blueSquare)) [(4, 4)] 1 0
     (by decide) ⟨(4, 4), by decide, by decide⟩⟩

/-- Restoring a snapshot of full board length overwrites every cell with the
snapshot's entry, so the restored grid is the snapshot itself. -/
theorem restoreState_eq (g : Grid) (snap : Snapshot) (hlen : snap.length = g.length) :
    restoreState g snap = snap := by
  apply List.ext_getElem?
  intro n
  unfold restoreState
  rw [List.getElem?_map]
  by_cases hn : n < g.length
  · rw [List.getElem?_range hn, Option.map_some',
      List.getElem?_eq_getElem (show n < snap.length by omega)]
    simp [List.get?_eq_getElem?, List.getElem?_eq_getElem (show n < snap.length by omega)]
  · rw [List.getElem?_eq_none (by simpa using hn), List.getElem?_eq_none (by omega)]
    rfl

/-- C2: with a non-empty history stack, `undo` pops exactly the most recent
snapshot and restores every cell of the board to that snapshot's contents;
with an empty stack it is a no-op that leaves grid and history unchanged. -/
theorem undo_restores_last_snapshot (g : Grid) (h : History) :
    (h = [] → undo g h = (g, h)) ∧
    (∀ last, h.getLast? = some last → last.length = g.length →
      undo g h = (last, h.dropLast)) := by
  constructor
  · rintro rfl
    rfl
  · intro last hlast hlen
    unfold undo
    rw [hlast]
    show (restoreState g last, h.dropLast) = (last, h.dropLast)
    rw [restoreState_eq g last hlen]

/-- Witness for C2: undoing after one stamp restores the pre-stamp snapshot
and empties the one-entry stack; the empty-stack case is a no-op. -/
theorem undo_restores_last_snapshot_witness :
    ([snapshot emptyGrid].getLast? = some (snapshot emptyGrid) ∧
      (snapshot emptyGrid).length = (stampOp emptyGrid 0 0 "square" "#6396fc").length) ∧
    undo (stampOp emptyGrid 0 0 "square" "#6396fc") [snapshot emptyGrid] =
      (snapshot emptyGrid, []) ∧
    undo emptyGrid [] = (emptyGrid, []) :=
  ⟨⟨rfl, by decide⟩,
   (undo_restores_last_snapshot (stampOp emptyGrid 0 0 "square" "#6396fc")
       [snapshot emptyGrid]).2 (snapshot emptyGrid) rfl (by decide),
   (undo_restores_last_snapshot emptyGrid []).1 rfl⟩

/-- C5: `pushState` keeps the history stack at no more than 100 snapshots:
it appends the new snapshot as the most recent (last) entry, preserves the
bound, and at the bound evicts exactly the oldest (front) entry. -/
theorem history_stack_capped_at_100 (h : History) (g : Grid) :
    (h.length ≤ 100 → (pushState h g).length ≤ 100) ∧
    (pushState h g).getLast? = some (snapshot g) ∧
    (h.length = 100 → pushState h g = h.tail ++ [snapshot g]) := by
  refine ⟨?_, ?_, ?_⟩
  · intro hle
    unfold pushState
    dsimp only
    split
    · simp only [List.length_tail, List.length_append, List.length_singleton]
      omega
    · rename_i hgt
      simp only [List.length_append, List.length_singleton] at hgt ⊢
      omega
  · unfold pushState
    dsimp only
    split
    · rename_i hgt
      cases h with
      | nil => simp at hgt
      | cons a t =>
        show (t ++ [snapshot g]).getLast? = some (snapshot g)
        exact List.getLast?_concat t
    · exact List.getLast?_concat h
  · intro h100
    unfold pushState
    dsimp only
    rw [if_pos (by simp [h100])]
    cases h with
    | nil => simp at h100
    | cons a t => rfl

/-- Witness for C5: pushing onto a full 100-entry stack keeps the length at
100 and drops the oldest entry. -/
theorem history_stack_capped_at_100_witness :
    (List.replicate 100 (snapshot emptyGrid) : History).length ≤ 100 ∧
    (pushState (List.replicate 100 (snapshot emptyGrid)) emptyGrid).length ≤ 100 ∧
    (List.replicate 100 (snapshot emptyGrid) : History).length = 100 ∧
    pushState (List.replicate 100 (snapshot emptyGrid)) emptyGrid =
      (List.replicate 100 (snapshot emptyGrid) : History).tail ++ [snapshot emptyGrid] :=
  ⟨by decide,
   (history_stack_capped_at_100 (List.replicate 100 (snapshot emptyGrid)) emptyGrid).1
     (by decide),
   by decide,
   (history_stack_capped_at_100 (List.replicate 100 (snapshot emptyGrid)) emptyGrid).2.2
     (by decide)⟩

theorem readCell_rotateOp (g : Grid) {r c : Nat} {d : ShapeData}
    (hlen : g.length = GRID_SIZE * GRID_SIZE) (hr : r < GRID_SIZE) (hc : c < GRID_SIZE)
    (hd : readCell g r c = some d) :
    readCell (rotateOp g r c) r c = some (rotateData d) ∧
    (rotateOp g r c).length = GRID_SIZE * GRID_SIZE := by
  unfold rotateOp
  rw [hd]
  refine ⟨?_, by rw [length_writeCell]; exact hlen⟩
  rw [readCell_writeCell g _ hlen hr hc hr hc, if_pos ⟨rfl, rfl⟩]

/-- C9: single-cell rotate replaces the cell's rotation with
`(rotation + 90) % 360`; iterating the data mutation never touches
shape kind, color or the mirror flags, and four rotate clicks on the same
occupied cell return it to exactly its original data. -/
theorem rotate_four_times_restores (g : Grid) (r c : Nat) (d : ShapeData)
    (hlen : g.length = GRID_SIZE * GRID_SIZE) (hr : r < GRID_SIZE) (hc : c < GRID_SIZE)
    (hd : readCell g r c = some d) (hrot : d.rotation < 360) :
    (rotateData d).rotation = (d.rotation + 90) % 360 ∧
    (∀ k : Nat, (rotateData^[k] d).shapeType = d.shapeType ∧
      (rotateData^[k] d).color = d.color ∧
      (rotateData^[k] d).mirrorX = d.mirrorX ∧
      (rotateData^[k] d).mirrorY = d.mirrorY) ∧
    readCell (rotateOp (rotateOp (rotateOp (rotateOp g r c) r c) r c) r c) r c = some d := by
  refine ⟨rfl, ?_, ?_⟩
  · intro k
    induction k with
    | zero => simp
    | succ n ihn =>
      rw [Function.iterate_succ_apply']
      simpa [rotateData] using ihn
  · obtain ⟨h1, l1⟩ := readCell_rotateOp g hlen hr hc hd
    obtain ⟨h2, l2⟩ := readCell_rotateOp _ l1 hr hc h1
    obtain ⟨h3, l3⟩ := readCell_rotateOp _ l2 hr hc h2
    obtain ⟨h4, _⟩ := readCell_rotateOp _ l3 hr hc h3
    rw [h4]
    cases d with
    | mk st co rot mx my =>
      have hrot2 : rot < 360 := hrot
      simp only [rotateData, Option.some.injEq, ShapeData.mk.injEq, true_and, and_true]
      omega

/-- Witness for C9: four rotate clicks on a stamped blue square at `(2,3)`
return the cell to its original data. -/
theorem rotate_four_times_restores_witness :
    ((stampOp emptyGrid 2 3 "square" "#6396fc").length = GRID_SIZE * GRID_SIZE ∧
      readCell (stampOp emptyGrid 2 3 "square" "#6396fc") 2 3 = some blueSquare ∧
      blueSquare.rotation < 360) ∧
    readCell (rotateOp (rotateOp (rotateOp (rotateOp
      (stampOp emptyGrid 2 3 "square" "#6396fc") 2 3) 2 3) 2 3) 2 3) 2 3 = some blueSquare :=
  ⟨⟨by decide, by decide, by decide⟩,
   (rotate_four_times_restores (stampOp emptyGrid 2 3 "square" "#6396fc") 2 3 blueSquare
     (by decide) (by decide) (by decide) (by decide) (by decide)).2.2⟩

/-- C10: `cellFromPointer` is total: for any pointer coordinates over a grid
rectangle of positive size it returns either one of the `GRID_SIZE²` cells or
`none`; coordinates left of or above the rectangle are rejected by the
explicit guard, and a computed index past the cells array becomes `none`. -/
theorem cellFromPointer_total_safe
    (clientX clientY rectLeft rectTop rectWidth rectHeight : ℚ)
    (hW : 0 < rectWidth) (hH : 0 < rectHeight) :
    (cellFromPointer clientX clientY rectLeft rectTop rectWidth rectHeight = none ∨
      ∃ i, i < GRID_SIZE * GRID_SIZE ∧
        cellFromPointer clientX clientY rectLeft rectTop rectWidth rectHeight = some i) ∧
    (clientX - rectLeft < 0 ∨ clientY - rectTop < 0 →
      cellFromPointer clientX clientY rectLeft rectTop rectWidth rectHeight = none) := by
  constructor
  · unfold cellFromPointer
    dsimp only
    split
    · exact Or.inl rfl
    · split
      · rename_i hidx
        right
        refine ⟨_, ?_, rfl⟩
        obtain ⟨h0, hlt⟩ := hidx
        show _ < GRID_SIZE * GRID_SIZE
        unfold GRID_SIZE at hlt ⊢
        omega
      · exact Or.inl rfl
  · intro hneg
    unfold cellFromPointer
    dsimp only
    rw [if_pos]
    rcases hneg with hx | hy
    · exact Or.inl hx
    · exact Or.inr (Or.inl hy)

/-- Witness for C10: a pointer in the middle of the top-left cell of a
500×500 grid rectangle resolves to a valid cell, and a pointer left of the
rectangle resolves to `none`. -/
theorem cellFromPointer_total_safe_witness :
    ((0 : ℚ) < 500 ∧
      (cellFromPointer 50 50 0 0 500 500 = none ∨
        ∃ i, i < GRID_SIZE * GRID_SIZE ∧ cellFromPointer 50 50 0 0 500 500 = some i)) ∧
    cellFromPointer (-1) 50 0 0 500 500 = none :=
  ⟨⟨by norm_num,
    (cellFromPointer_total_safe 50 50 0 0 500 500 (by norm_num) (by norm_num)).1⟩,
   (cellFromPointer_total_safe (-1) 50 0 0 500 500 (by norm_num) (by norm_num)).2
     (by norm_num)⟩

theorem countFilled_foldl_eq_zero (g : Grid) :
    ∀ n : Nat, g.foldl (fun m c => if c.isSome then m + 1 else m) n = 0 →
      n = 0 ∧ ∀ c ∈ g, c = none := by
  induction g with
  | nil => exact fun n hn => ⟨hn, by simp⟩
  | cons a t ih =>
    intro n hfold
    obtain ⟨hstep, ht⟩ := ih (if a.isSome then n + 1 else n) hfold
    have ha : a = none := by
      cases a with
      | none => rfl
      | some d => simp at hstep
    subst ha
    simp only [Option.isSome_none, Bool.false_eq_true, if_false] at hstep
    refine ⟨hstep, ?_⟩
    intro c hc
    rcases List.mem_cons.1 hc with rfl | hmem
    · rfl
    · exact ht c hmem

theorem occupiedPositions_eq_nil (g : Grid) (hall : ∀ c ∈ g, c = none) :
    occupiedPositions g = [] := by
  unfold occupiedPositions
  rw [List.filterMap_eq_nil]
  intro i _
  cases hg : g.get? i with
  | none => rfl
  | some c =>
    have := hall c (List.get?_mem hg)
    subst this
    rfl

/-- part_003's per-cell state: that 4×4 variant stores only a colour and the
click-cycle rotation (`clickCount * 90` degrees). -/
structure ShapeP3 where
  color : String
  rotation : Nat
deriving DecidableEq, Repr

/-- part_003's 4×4 board, row-major (`for (let i = 0; i < 16; i++)`). -/
abbrev GridP3 := List (Option ShapeP3)

/-- part_003's cell count: 16. -/
def P3_CELL_COUNT : Nat := 16

/-- The all-empty part_003 board. -/
def emptyGridP3 : GridP3 := List.replicate P3_CELL_COUNT none

/-- Occupied-cell count of a part_003 board (a cell is occupied when it has
a `.shape` child). -/
def countFilledP3 (g : GridP3) : Nat :=
  g.foldl (fun n c => if c.isSome then n + 1 else n) 0

/-- The `downloadBtn` click handler of part_003 (lines 78–114): after
checking only that the html2canvas library is loaded, it renders the whole
grid element to a canvas and triggers the PNG download unconditionally — it
never consults the cells, computes no bounds, and has no empty-board guard.
The external rasterizer is modelled as capturing the abstract board state,
so the handler's outcome is `none` exactly on the missing-library alert path
and otherwise the whole-grid document, whatever the occupancy. -/
def exportPngP3 (loaded : Bool) (g : GridP3) : Option GridP3 :=
  if loaded then some g else none

/-- Counterexample to C8: part_003's PNG export handler, invoked while zero
cells are occupied, still produces a document (the whole-grid transparent
PNG), so "no document is produced" fails on that cited handler. -/
theorem part003_empty_export_produces_document :
    countFilledP3 emptyGridP3 = 0 ∧ exportPngP3 true emptyGridP3 ≠ none :=
  ⟨rfl, by decide⟩

/-- C8 (amended): in the bounds-guarded export handlers — the SVG exporters,
which detect the empty board via the sentinel bounds result — requesting an
export while zero cells are occupied produces no document and surfaces the
user-facing alert (a blocking, recoverable validation error), and any
document that is produced has a strictly positive declared size, never a
zero-size canvas; part_003's PNG export handler, by contrast, has no
occupancy guard and produces the whole-grid document for every board,
including one with zero cells occupied. -/
theorem empty_export_rejected (g : Grid) :
    ((countFilledCells g = 0 →
        findUsedBounds g = none ∧
        exportResult g = Except.error "No artwork found! Place shapes before exporting.") ∧
      (∀ w h, exportResult g = Except.ok (w, h) → CELL_PX ≤ w ∧ CELL_PX ≤ h)) ∧
    (∀ gp : GridP3, exportPngP3 true gp = some gp) := by
  refine ⟨?_, fun gp => rfl⟩
  constructor
  · intro hcount
    obtain ⟨_, hall⟩ := countFilled_foldl_eq_zero g 0 hcount
    have hocc : occupiedPositions g = [] := occupiedPositions_eq_nil g hall
    have hb : findUsedBounds g = none := by
      unfold findUsedBounds
      rw [hocc]
      rfl
    exact ⟨hb, by unfold exportResult; rw [hb]⟩
  · intro w h hok
    unfold exportResult at hok
    cases hb : findUsedBounds g with
    | none => rw [hb] at hok; exact absurd hok (by simp)
    | some b =>
      rw [hb] at hok
      have hw : w = svgWidth b := by
        have := congrArg (fun e => match e with
          | Except.ok (p : Nat × Nat) => p.1
          | Except.error _ => 0) hok
        simpa using this.symm
      have hh : h = svgHeight b := by
        have := congrArg (fun e => match e with
          | Except.ok (p : Nat × Nat) => p.2
          | Except.error _ => 0) hok
        simpa using this.symm
      subst hw hh
      unfold svgWidth svgHeight
      constructor
      · calc CELL_PX = 1 * CELL_PX := (Nat.one_mul _).symm
          _ ≤ (b.maxCol - b.minCol + 1) * CELL_PX :=
            Nat.mul_le_mul_right _ (by omega)
      · calc CELL_PX = 1 * CELL_PX := (Nat.one_mul _).symm
          _ ≤ (b.maxRow - b.minRow + 1) * CELL_PX :=
            Nat.mul_le_mul_right _ (by omega)

/-- Witness for C8: on the initial empty 5×5 board the guarded export is
rejected with the alert message and no document, while part_003's unguarded
export still produces the whole-grid document on its empty board. -/
theorem empty_export_rejected_witness :
    countFilledCells emptyGrid = 0 ∧
    (findUsedBounds emptyGrid = none ∧
      exportResult emptyGrid =
        Except.error "No artwork found! Place shapes before exporting.") ∧
    exportPngP3 true emptyGridP3 = some emptyGridP3 :=
  ⟨by decide, (empty_export_rejected emptyGrid).1.1 (by decide),
   (empty_export_rejected emptyGrid).2 emptyGridP3⟩

/-- The two-stamp board of the C4 scenario: `Square/blue` at `(0,0)` and at
`(1,1)` on the empty 5×5 board. -/
def scenarioGrid : Grid :=
  stampOp (stampOp emptyGrid 0 0 "square" "#6396fc") 1 1 "square" "#6396fc"

/-- The yellow square stamped by the yellow tool colour. -/
def yellowSquare : ShapeData := ⟨"square", "#ffdd35", 0, false, false⟩

/-- A two-cell chain with overlapping source and destination sets: blue at
`(0,0)` and yellow at `(0,1)`; moving both by `(0,+1)` makes `(0,1)` both a
source and a destination. -/
def chainGrid : Grid :=
  writeCell (writeCell emptyGrid 0 0 (some blueSquare)) 0 1 (some yellowSquare)

/-- The destination cell of a selection member under the drag delta:
`dest = cell + delta` of the plan loop. -/
def destOf (dRow dCol : Int) (p : Nat × Nat) : Nat × Nat :=
  (((p.1 : Int) + dRow).toNat, ((p.2 : Int) + dCol).toNat)

/-- When every selected cell is occupied and every destination is in bounds,
the plan loop succeeds, recording each member in selection order as source,
its shifted cell as destination, and the member's data as payload. -/
theorem planMove_spec (g : Grid) (dRow dCol : Int) :
    ∀ sel : List (Nat × Nat),
      (∀ p ∈ sel, readCell g p.1 p.2 ≠ none) →
      (∀ p ∈ sel, 0 ≤ (p.1 : Int) + dRow ∧ 0 ≤ (p.2 : Int) + dCol ∧
        (p.1 : Int) + dRow < (GRID_SIZE : Int) ∧ (p.2 : Int) + dCol < (GRID_SIZE : Int)) →
      ∃ plan, planMove g sel dRow dCol = some plan ∧
        plan.map (fun e => (e.srcRow, e.srcCol)) = sel ∧
        ∀ e ∈ plan, (e.destRow, e.destCol) = destOf dRow dCol (e.srcRow, e.srcCol) ∧
          readCell g e.srcRow e.srcCol = some e.data := by
  intro sel
  induction sel with
  | nil =>
    intro _ _
    exact ⟨[], rfl, rfl, by simp⟩
  | cons q rest ih =>
    intro hocc hbnd
    obtain ⟨r, c⟩ := q
    have hq := hocc (r, c) (List.mem_cons_self _ _)
    obtain ⟨d, hd⟩ := Option.ne_none_iff_exists'.mp hq
    obtain ⟨plan2, hp2, hsrc2, hent2⟩ :=
      ih (fun p hp => hocc p (List.mem_cons_of_mem _ hp))
        (fun p hp => hbnd p (List.mem_cons_of_mem _ hp))
    have hb : 0 ≤ (r : Int) + dRow ∧ 0 ≤ (c : Int) + dCol ∧
        (r : Int) + dRow < (GRID_SIZE : Int) ∧ (c : Int) + dCol < (GRID_SIZE : Int) :=
      hbnd (r, c) (List.mem_cons_self _ _)
    refine ⟨⟨r, c, ((r : Int) + dRow).toNat, ((c : Int) + dCol).toNat, d⟩ :: plan2,
      ?_, ?_, ?_⟩
    · simp only [planMove, hd]
      rw [if_neg (by push_neg; exact ⟨hb.1, hb.2.1, hb.2.2.1, hb.2.2.2⟩), hp2]
    · simp only [List.map_cons, hsrc2]
    · intro e he
      rcases List.mem_cons.1 he with rfl | hmem
      · exact ⟨rfl, hd⟩
      · exact hent2 e hmem

/-- Pointwise effect of the clear-sources pass: a cell is empty when it is
one of the plan's sources and untouched otherwise. -/
theorem readCell_clearSources :
    ∀ (plan : List MoveEntry) (g : Grid), g.length = GRID_SIZE * GRID_SIZE →
      (∀ e ∈ plan, e.srcRow < GRID_SIZE ∧ e.srcCol < GRID_SIZE) →
      ∀ r c, r < GRID_SIZE → c < GRID_SIZE →
        (readCell (clearSources g plan) r c =
          if (r, c) ∈ plan.map (fun e => (e.srcRow, e.srcCol)) then none
          else readCell g r c) ∧
        (clearSources g plan).length = GRID_SIZE * GRID_SIZE := by
  intro plan
  induction plan with
  | nil =>
    intro g hlen _ r c hr hc
    exact ⟨by rw [if_neg (by simp)]; rfl, hlen⟩
  | cons f rest ih =>
    intro g hlen hin r c hr hc
    have hf := hin f (List.mem_cons_self _ _)
    have hlen1 : (writeCell g f.srcRow f.srcCol none).length = GRID_SIZE * GRID_SIZE := by
      rw [length_writeCell]; exact hlen
    have hrest := ih _ hlen1 (fun e he => hin e (List.mem_cons_of_mem _ he)) r c hr hc
    refine ⟨?_, hrest.2⟩
    show readCell (clearSources (writeCell g f.srcRow f.srcCol none) rest) r c = _
    rw [hrest.1, readCell_writeCell g _ hlen hf.1 hf.2 hr hc]
    by_cases h1 : (r, c) ∈ rest.map (fun e => (e.srcRow, e.srcCol))
    · rw [if_pos h1, if_pos (by
        simp only [List.map_cons]
        exact List.mem_cons_of_mem _ h1)]
    · rw [if_neg h1]
      by_cases h2 : r = f.srcRow ∧ c = f.srcCol
      · rw [if_pos h2, if_pos (by
          simp only [List.map_cons]
          exact List.mem_cons.2 (Or.inl (Prod.ext h2.1 h2.2)))]
      · rw [if_neg h2, if_neg (by
          simp only [List.map_cons]
          intro hmem
          rcases List.mem_cons.1 hmem with hh | hh
          · exact h2 ⟨congrArg Prod.fst hh, congrArg Prod.snd hh⟩
          · exact h1 hh)]

/-- Frame property of the write-destinations pass: a cell that is none of
the plan's destinations is untouched. -/
theorem readCell_writeDests_frame :
    ∀ (plan : List MoveEntry) (g : Grid), g.length = GRID_SIZE * GRID_SIZE →
      (∀ e ∈ plan, e.destRow < GRID_SIZE ∧ e.destCol < GRID_SIZE) →
      ∀ r c, r < GRID_SIZE → c < GRID_SIZE →
        ((r, c) ∉ plan.map (fun e => (e.destRow, e.destCol)) →
          readCell (writeDests g plan) r c = readCell g r c) ∧
        (writeDests g plan).length = GRID_SIZE * GRID_SIZE := by
  intro plan
  induction plan with
  | nil =>
    intro g hlen _ r c hr hc
    exact ⟨fun _ => rfl, hlen⟩
  | cons f rest ih =>
    intro g hlen hin r c hr hc
    have hf := hin f (List.mem_cons_self _ _)
    have hlen1 : (writeCell g f.destRow f.destCol (some f.data)).length =
        GRID_SIZE * GRID_SIZE := by
      rw [length_writeCell]; exact hlen
    have hrest := ih _ hlen1 (fun e he => hin e (List.mem_cons_of_mem _ he)) r c hr hc
    refine ⟨?_, hrest.2⟩
    intro hnot
    have hnot1 : (r, c) ∉ rest.map (fun e => (e.destRow, e.destCol)) := by
      intro hmem
      exact hnot (by simp only [List.map_cons]; exact List.mem_cons_of_mem _ hmem)
    show readCell (writeDests (writeCell g f.destRow f.destCol (some f.data)) rest) r c = _
    rw [hrest.1 hnot1, readCell_writeCell g _ hlen hf.1 hf.2 hr hc,
      if_neg (by
        rintro ⟨rfl, rfl⟩
        exact hnot (by simp only [List.map_cons]; exact List.mem_cons_self _ _))]

/-- After the write pass, each plan entry's destination holds exactly that
entry's data, whenever the plan's destinations are pairwise distinct. -/
theorem readCell_writeDests_entry :
    ∀ (plan : List MoveEntry) (g : Grid), g.length = GRID_SIZE * GRID_SIZE →
      (∀ e ∈ plan, e.destRow < GRID_SIZE ∧ e.destCol < GRID_SIZE) →
      (plan.map (fun e => (e.destRow, e.destCol))).Nodup →
      ∀ e ∈ plan, readCell (writeDests g plan) e.destRow e.destCol = some e.data := by
  intro plan
  induction plan with
  | nil =>
    intro g _ _ _ e he
    exact absurd he (List.not_mem_nil e)
  | cons f rest ih =>
    intro g hlen hin hnodup e he
    have hf := hin f (List.mem_cons_self _ _)
    have hlen1 : (writeCell g f.destRow f.destCol (some f.data)).length =
        GRID_SIZE * GRID_SIZE := by
      rw [length_writeCell]; exact hlen
    simp only [List.map_cons, List.nodup_cons] at hnodup
    rcases List.mem_cons.1 he with heq | hmem
    · subst heq
      show readCell (writeDests (writeCell g e.destRow e.destCol (some e.data)) rest)
        e.destRow e.destCol = some e.data
      rw [(readCell_writeDests_frame rest _ hlen1
          (fun x hx => hin x (List.mem_cons_of_mem _ hx))
          e.destRow e.destCol hf.1 hf.2).1 hnodup.1,
        readCell_writeCell g _ hlen hf.1 hf.2 hf.1 hf.2, if_pos ⟨rfl, rfl⟩]
    · show readCell (writeDests (writeCell g f.destRow f.destCol (some f.data)) rest)
        e.destRow e.destCol = some e.data
      exact ih _ hlen1 (fun x hx => hin x (List.mem_cons_of_mem _ hx)) hnodup.2 e hmem

/-- C4: on a successful move, the whole batch of sources is cleared before
any destination is written, which is observable exactly when source and
destination sets overlap: every member's destination ends up holding that
member's data (unconditionally replacing any prior occupant, including when
the destination is another member's source cell), every source that is not
itself some member's destination ends up empty, and all other cells are
untouched.  Concretely, the claim's 5×5 scenario (Square/blue at `(0,0)` and
`(1,1)`, move `{(0,0)}` by `(+1,+1)`) ends with `(0,0)` empty and `(1,1)`
holding the shape from `(0,0)`; and the overlapping two-cell chain of
`chainGrid` moved by `(0,+1)` relocates both shapes without
self-clobbering. -/
theorem move_clears_sources_then_overwrites_dests
    (g : Grid) (sel : List (Nat × Nat)) (dRow dCol : Int)
    (hlen : g.length = GRID_SIZE * GRID_SIZE)
    (hsel5 : ∀ p ∈ sel, p.1 < GRID_SIZE ∧ p.2 < GRID_SIZE)
    (hocc : ∀ p ∈ sel, readCell g p.1 p.2 ≠ none)
    (hnodup : sel.Nodup)
    (hdelta : ¬(dRow = 0 ∧ dCol = 0))
    (hbounds : ∀ p ∈ sel, 0 ≤ (p.1 : Int) + dRow ∧ 0 ≤ (p.2 : Int) + dCol ∧
      (p.1 : Int) + dRow < (GRID_SIZE : Int) ∧ (p.2 : Int) + dCol < (GRID_SIZE : Int)) :
    ((∀ p ∈ sel,
        readCell (moveOp g sel dRow dCol) (destOf dRow dCol p).1 (destOf dRow dCol p).2 =
          readCell g p.1 p.2) ∧
      (∀ p ∈ sel, (∀ q ∈ sel, destOf dRow dCol q ≠ p) →
        readCell (moveOp g sel dRow dCol) p.1 p.2 = none) ∧
      (∀ r c, r < GRID_SIZE → c < GRID_SIZE → (r, c) ∉ sel →
        (∀ q ∈ sel, destOf dRow dCol q ≠ (r, c)) →
        readCell (moveOp g sel dRow dCol) r c = readCell g r c)) ∧
    ((readCell (moveOp scenarioGrid [(0, 0)] 1 1) 0 0 = none ∧
        readCell (moveOp scenarioGrid [(0, 0)] 1 1) 1 1 = some blueSquare ∧
        moveOp scenarioGrid [(0, 0)] 1 1 = writeCell emptyGrid 1 1 (some blueSquare)) ∧
      (readCell (moveOp chainGrid [(0, 0), (0, 1)] 0 1) 0 0 = none ∧
        readCell (moveOp chainGrid [(0, 0), (0, 1)] 0 1) 0 1 = some blueSquare ∧
        readCell (moveOp chainGrid [(0, 0), (0, 1)] 0 1) 0 2 = some yellowSquare)) := by
  have hGRID : GRID_SIZE = 5 := rfl
  obtain ⟨plan, hplan, hsrcs, hent⟩ := planMove_spec g dRow dCol sel hocc hbounds
  have hmove : moveOp g sel dRow dCol = writeDests (clearSources g plan) plan := by
    unfold moveOp
    rw [if_neg hdelta, hplan]
  have hsrc5 : ∀ e ∈ plan, e.srcRow < GRID_SIZE ∧ e.srcCol < GRID_SIZE := by
    intro e he
    have hm : ((e.srcRow, e.srcCol) : Nat × Nat) ∈ sel := by
      rw [← hsrcs]
      exact List.mem_map_of_mem _ he
    exact hsel5 _ hm
  have hdest5 : ∀ e ∈ plan, e.destRow < GRID_SIZE ∧ e.destCol < GRID_SIZE := by
    intro e he
    have hm : ((e.srcRow, e.srcCol) : Nat × Nat) ∈ sel := by
      rw [← hsrcs]
      exact List.mem_map_of_mem _ he
    have hb : 0 ≤ (e.srcRow : Int) + dRow ∧ 0 ≤ (e.srcCol : Int) + dCol ∧
        (e.srcRow : Int) + dRow < (GRID_SIZE : Int) ∧
        (e.srcCol : Int) + dCol < (GRID_SIZE : Int) := hbounds _ hm
    have hde := (hent e he).1
    have h1 : e.destRow = ((e.srcRow : Int) + dRow).toNat := congrArg Prod.fst hde
    have h2 : e.destCol = ((e.srcCol : Int) + dCol).toNat := congrArg Prod.snd hde
    rw [hGRID] at hb ⊢
    omega
  have hdestpair : plan.map (fun e => (e.destRow, e.destCol)) =
      sel.map (destOf dRow dCol) := by
    have h1 : plan.map (fun e => (e.destRow, e.destCol)) =
        plan.map (fun e => destOf dRow dCol (e.srcRow, e.srcCol)) :=
      List.map_congr_left (fun e he => (hent e he).1)
    rw [h1, ← hsrcs, List.map_map]
    rfl
  have hnodupdest : (plan.map (fun e => (e.destRow, e.destCol))).Nodup := by
    rw [hdestpair]
    refine List.Nodup.map_on ?_ hnodup
    intro p hp q hq heq
    have hbp : 0 ≤ (p.1 : Int) + dRow ∧ 0 ≤ (p.2 : Int) + dCol ∧
        (p.1 : Int) + dRow < (GRID_SIZE : Int) ∧ (p.2 : Int) + dCol < (GRID_SIZE : Int) :=
      hbounds p hp
    have hbq : 0 ≤ (q.1 : Int) + dRow ∧ 0 ≤ (q.2 : Int) + dCol ∧
        (q.1 : Int) + dRow < (GRID_SIZE : Int) ∧ (q.2 : Int) + dCol < (GRID_SIZE : Int) :=
      hbounds q hq
    unfold destOf at heq
    have h1 : ((p.1 : Int) + dRow).toNat = ((q.1 : Int) + dRow).toNat :=
      congrArg Prod.fst heq
    have h2 : ((p.2 : Int) + dCol).toNat = ((q.2 : Int) + dCol).toNat :=
      congrArg Prod.snd heq
    have hfst : p.1 = q.1 := by omega
    have hsnd : p.2 = q.2 := by omega
    exact Prod.ext hfst hsnd
  have h05 : (0 : Nat) < GRID_SIZE := by rw [hGRID]; omega
  have hclen : (clearSources g plan).length = GRID_SIZE * GRID_SIZE :=
    (readCell_clearSources plan g hlen hsrc5 0 0 h05 h05).2
  refine ⟨⟨?_, ?_, ?_⟩, ⟨by decide, by decide, by decide⟩, by decide, by decide, by decide⟩
  · intro p hp
    have hp2 : p ∈ plan.map (fun e => (e.srcRow, e.srcCol)) := by
      rw [hsrcs]; exact hp
    obtain ⟨e, he, hesrc⟩ := List.mem_map.1 hp2
    have hde := (hent e he).1
    have hdata := (hent e he).2
    have hdd : destOf dRow dCol p = (e.destRow, e.destCol) := by
      rw [← hesrc, ← hde]
    have hfinal : readCell (moveOp g sel dRow dCol) e.destRow e.destCol = some e.data := by
      rw [hmove]
      exact readCell_writeDests_entry plan _ hclen hdest5 hnodupdest e he
    rw [hdd, ← hesrc]
    exact hfinal.trans hdata.symm
  · intro p hp hnotdest
    have hp5 : p.1 < GRID_SIZE ∧ p.2 < GRID_SIZE := hsel5 p hp
    have hpnotdest : ((p.1, p.2) : Nat × Nat) ∉
        plan.map (fun e => (e.destRow, e.destCol)) := by
      rw [hdestpair]
      intro hmem
      obtain ⟨q, hq, hqv⟩ := List.mem_map.1 hmem
      exact hnotdest q hq hqv
    rw [hmove,
      (readCell_writeDests_frame plan _ hclen hdest5 p.1 p.2 hp5.1 hp5.2).1 hpnotdest,
      (readCell_clearSources plan g hlen hsrc5 p.1 p.2 hp5.1 hp5.2).1,
      if_pos (by rw [hsrcs]; exact hp)]
  · intro r c hr hc hnotsel hnotdest
    have hnd : ((r, c) : Nat × Nat) ∉ plan.map (fun e => (e.destRow, e.destCol)) := by
      rw [hdestpair]
      intro hmem
      obtain ⟨q, hq, hqv⟩ := List.mem_map.1 hmem
      exact hnotdest q hq hqv
    rw [hmove,
      (readCell_writeDests_frame plan _ hclen hdest5 r c hr hc).1 hnd,
      (readCell_clearSources plan g hlen hsrc5 r c hr hc).1,
      if_neg (by rw [hsrcs]; exact hnotsel)]

/-- Witness for C4: the overlapping two-cell chain move, with every
hypothesis discharged at the concrete input. -/
theorem move_clears_sources_then_overwrites_dests_witness :
    (chainGrid.length = GRID_SIZE * GRID_SIZE ∧
      (∀ p ∈ ([(0, 0), (0, 1)] : List (Nat × Nat)), readCell chainGrid p.1 p.2 ≠ none) ∧
      ([(0, 0), (0, 1)] : List (Nat × Nat)).Nodup) ∧
    readCell (moveOp chainGrid [(0, 0), (0, 1)] 0 1) 0 0 = none ∧
    readCell (moveOp chainGrid [(0, 0), (0, 1)] 0 1) 0 1 = some blueSquare ∧
    readCell (moveOp chainGrid [(0, 0), (0, 1)] 0 1) 0 2 = some yellowSquare :=
  ⟨⟨by decide, by decide, by decide⟩,
   (move_clears_sources_then_overwrites_dests chainGrid [(0, 0), (0, 1)] 0 1
     (by decide) (by decide) (by decide) (by decide) (by decide) (by decide)).2.2⟩

theorem readCell_cleared {r c : Nat} (hr : r < GRID_SIZE) (hc : c < GRID_SIZE) :
    readCell (List.replicate (GRID_SIZE * GRID_SIZE) (none : Cell)) r c = none := by
  unfold readCell
  rw [List.get?_eq_getElem?, List.getElem?_replicate]
  rw [if_pos (cellIndex_lt hr hc)]
  rfl

/-- Pointwise effect of one window-cell visit of the randomize loop. -/
theorem readCell_randomizeStep (draw : Nat → Nat → Option ShapeData)
    (g : Grid) {rr cc r0 c0 : Nat}
    (hlen : g.length = GRID_SIZE * GRID_SIZE)
    (hrr : rr < GRID_SIZE) (hcc : cc < GRID_SIZE)
    (hr0 : r0 < GRID_SIZE) (hc0 : c0 < GRID_SIZE) :
    readCell
        (match draw rr cc with
          | some d => writeCell g rr cc (some d)
          | none => g) r0 c0 =
      if r0 = rr ∧ c0 = cc ∧ (draw rr cc).isSome then draw rr cc
      else readCell g r0 c0 := by
  cases hD : draw rr cc with
  | none => simp
  | some d =>
    rw [readCell_writeCell g _ hlen hrr hcc hr0 hc0]
    by_cases h : r0 = rr ∧ c0 = cc
    · rw [if_pos h, if_pos ⟨h.1, h.2, rfl⟩]
    · rw [if_neg h, if_neg (fun hh => h ⟨hh.1, hh.2.1⟩)]

/-- Pointwise effect of one full row of the randomize loop. -/
theorem readCell_randomizeRow (draw : Nat → Nat → Option ShapeData) (rr : Nat)
    (hrr : rr < GRID_SIZE) :
    ∀ (cs : List Nat) (g : Grid), g.length = GRID_SIZE * GRID_SIZE →
      (∀ x ∈ cs, x < GRID_SIZE) →
      ∀ r0 c0, r0 < GRID_SIZE → c0 < GRID_SIZE →
        (readCell
            (cs.foldl
              (fun g2 cc =>
                match draw rr cc with
                | some d => writeCell g2 rr cc (some d)
                | none => g2) g) r0 c0 =
          if r0 = rr ∧ c0 ∈ cs ∧ (draw rr c0).isSome then draw rr c0
          else readCell g r0 c0) ∧
        (cs.foldl
            (fun g2 cc =>
              match draw rr cc with
              | some d => writeCell g2 rr cc (some d)
              | none => g2) g).length = GRID_SIZE * GRID_SIZE := by
  intro cs
  induction cs with
  | nil =>
    intro g hlen _ r0 c0 hr0 hc0
    refine ⟨?_, hlen⟩
    rw [if_neg (by simp)]
    rfl
  | cons cc rest ih =>
    intro g hlen hin r0 c0 hr0 hc0
    have hcc : cc < GRID_SIZE := hin cc (List.mem_cons_self _ _)
    have hlen1 :
        (match draw rr cc with
          | some d => writeCell g rr cc (some d)
          | none => g).length = GRID_SIZE * GRID_SIZE := by
      cases draw rr cc with
      | none => exact hlen
      | some d => rw [length_writeCell]; exact hlen
    have hrest := ih _ hlen1 (fun x hx => hin x (List.mem_cons_of_mem _ hx)) r0 c0 hr0 hc0
    refine ⟨?_, hrest.2⟩
    rw [List.foldl_cons, hrest.1, readCell_randomizeStep draw g hlen hrr hcc hr0 hc0]
    by_cases h1 : r0 = rr ∧ c0 ∈ rest ∧ (draw rr c0).isSome
    · rw [if_pos h1, if_pos ⟨h1.1, List.mem_cons_of_mem _ h1.2.1, h1.2.2⟩]
    · rw [if_neg h1]
      by_cases h2 : r0 = rr ∧ c0 = cc ∧ (draw rr cc).isSome
      · obtain ⟨hra, hcb, hs⟩ := h2
        subst hcb
        rw [if_pos ⟨hra, rfl, hs⟩, if_pos ⟨hra, List.mem_cons_self _ _, hs⟩]
      · rw [if_neg h2, if_neg (by
          rintro ⟨hra, hmem, hs⟩
          rcases List.mem_cons.1 hmem with rfl | hmem2
          · exact h2 ⟨hra, rfl, hs⟩
          · exact h1 ⟨hra, hmem2, hs⟩)]

/-- Pointwise effect of the whole nested randomize loop. -/
theorem readCell_randomizeRows (draw : Nat → Nat → Option ShapeData) (cs : List Nat)
    (hcs : ∀ x ∈ cs, x < GRID_SIZE) :
    ∀ (rs : List Nat) (g : Grid), g.length = GRID_SIZE * GRID_SIZE →
      (∀ x ∈ rs, x < GRID_SIZE) →
      ∀ r0 c0, r0 < GRID_SIZE → c0 < GRID_SIZE →
        readCell
            (rs.foldl
              (fun g2 rr =>
                cs.foldl
                  (fun g3 cc =>
                    match draw rr cc with
                    | some d => writeCell g3 rr cc (some d)
                    | none => g3) g2) g) r0 c0 =
          if r0 ∈ rs ∧ c0 ∈ cs ∧ (draw r0 c0).isSome then draw r0 c0
          else readCell g r0 c0 := by
  intro rs
  induction rs with
  | nil =>
    intro g hlen _ r0 c0 hr0 hc0
    rw [if_neg (by simp)]
    rfl
  | cons rr rest ih =>
    intro g hlen hin r0 c0 hr0 hc0
    have hrr : rr < GRID_SIZE := hin rr (List.mem_cons_self _ _)
    have hrow := readCell_randomizeRow draw rr hrr cs g hlen hcs r0 c0 hr0 hc0
    rw [List.foldl_cons, ih _ hrow.2 (fun x hx => hin x (List.mem_cons_of_mem _ hx)) r0 c0 hr0 hc0,
      hrow.1]
    by_cases h1 : r0 ∈ rest ∧ c0 ∈ cs ∧ (draw r0 c0).isSome
    · rw [if_pos h1, if_pos ⟨List.mem_cons_of_mem _ h1.1, h1.2⟩]
    · rw [if_neg h1]
      by_cases h2 : r0 = rr ∧ c0 ∈ cs ∧ (draw rr c0).isSome
      · obtain ⟨hra, hcmem, hs⟩ := h2
        subst hra
        rw [if_pos ⟨rfl, hcmem, hs⟩, if_pos ⟨List.mem_cons_self _ _, hcmem, hs⟩]
      · rw [if_neg h2, if_neg (by
          rintro ⟨hmem, hcmem, hs⟩
          rcases List.mem_cons.1 hmem with rfl | hmem2
          · exact h2 ⟨rfl, hcmem, hs⟩
          · exact h1 ⟨hmem2, hcmem, hs⟩)]

/-- C6: for a window size within the board, randomize first clears the whole
board and then only cells of the centered window, whose start is
`(GRID_SIZE - size) / 2` on each axis, receive their independent draw's
outcome; every cell strictly outside that window ends up unoccupied. -/
theorem randomize_confined_to_centered_window
    (draw : Nat → Nat → Option ShapeData) (size : Nat) (hsize : size ≤ GRID_SIZE) :
    ∀ r c, r < GRID_SIZE → c < GRID_SIZE →
      readCell (randomize draw size) r c =
        if (GRID_SIZE - size) / 2 ≤ r ∧ r < (GRID_SIZE - size) / 2 + size ∧
            (GRID_SIZE - size) / 2 ≤ c ∧ c < (GRID_SIZE - size) / 2 + size
        then draw r c else none := by
  intro r c hr hc
  have hGRID : GRID_SIZE = 5 := rfl
  unfold randomize getCenteredWindow
  dsimp only
  have hcan : (GRID_SIZE - size) / 2 + size - (GRID_SIZE - size) / 2 = size := by omega
  rw [hcan]
  rw [readCell_randomizeRows draw _
    (fun x hx => by
      have := List.mem_range'_1.mp hx
      rw [hGRID] at hsize ⊢
      omega)
    _ _ (by simp)
    (fun x hx => by
      have := List.mem_range'_1.mp hx
      rw [hGRID] at hsize ⊢
      omega)
    r c hr hc]
  rw [readCell_cleared hr hc]
  by_cases hwin : (GRID_SIZE - size) / 2 ≤ r ∧ r < (GRID_SIZE - size) / 2 + size ∧
      (GRID_SIZE - size) / 2 ≤ c ∧ c < (GRID_SIZE - size) / 2 + size
  · rw [if_pos hwin]
    cases hD : draw r c with
    | none => simp
    | some d =>
      rw [if_pos ⟨List.mem_range'_1.mpr ⟨hwin.1, by omega⟩,
        List.mem_range'_1.mpr ⟨hwin.2.2.1, by omega⟩, rfl⟩]
  · rw [if_neg hwin, if_neg (by
      rintro ⟨hrm, hcm, _⟩
      have h1 := List.mem_range'_1.mp hrm
      have h2 := List.mem_range'_1.mp hcm
      exact hwin ⟨h1.1, by omega, h2.1, by omega⟩)]

/-- Witness for C6: with window size 3 on the 5×5 board (window start 1), a
corner cell outside the window is empty after randomize even when every draw
succeeds, while a window cell holds its draw. -/
theorem randomize_confined_to_centered_window_witness :
    (3 ≤ GRID_SIZE ∧ (0 : Nat) < GRID_SIZE ∧ (4 : Nat) < GRID_SIZE ∧ (2 : Nat) < GRID_SIZE) ∧
    readCell (randomize (fun _ _ => some blueSquare) 3) 0 4 = none ∧
    readCell (randomize (fun _ _ => some blueSquare) 3) 2 2 = some blueSquare :=
  ⟨⟨by decide, by decide, by decide, by decide⟩,
   by
    rw [randomize_confined_to_centered_window (fun _ _ => some blueSquare) 3 (by decide)
      0 4 (by decide) (by decide)]
    decide,
   by
    rw [randomize_confined_to_centered_window (fun _ _ => some blueSquare) 3 (by decide)
      2 2 (by decide) (by decide)]
    decide⟩

theorem foldl_min_le_init (l : List Nat) : ∀ a : Nat, l.foldl min a ≤ a := by
  induction l with
  | nil => exact fun a => Nat.le_refl a
  | cons b t ih => exact fun a => Nat.le_trans (ih (min a b)) (Nat.min_le_left a b)

theorem foldl_min_le_mem (l : List Nat) : ∀ a x : Nat, x ∈ l → l.foldl min a ≤ x := by
  induction l with
  | nil => intro a x hx; exact absurd hx (List.not_mem_nil x)
  | cons b t ih =>
    intro a x hx
    rcases List.mem_cons.1 hx with rfl | hmem
    · exact Nat.le_trans (foldl_min_le_init t (min a x)) (Nat.min_le_right a x)
    · exact ih (min a b) x hmem

theorem foldl_min_attained (l : List Nat) :
    ∀ a : Nat, l.foldl min a = a ∨ l.foldl min a ∈ l := by
  induction l with
  | nil => exact fun a => Or.inl rfl
  | cons b t ih =>
    intro a
    rcases ih (min a b) with heq | hmem
    · rw [List.foldl_cons, heq]
      rcases Nat.le_total a b with hab | hba
      · exact Or.inl (Nat.min_eq_left hab)
      · exact Or.inr (by rw [Nat.min_eq_right hba]; exact List.mem_cons_self b t)
    · exact Or.inr (List.mem_cons_of_mem b hmem)

theorem init_le_foldl_max (l : List Nat) : ∀ a : Nat, a ≤ l.foldl max a := by
  induction l with
  | nil => exact fun a => Nat.le_refl a
  | cons b t ih => exact fun a => Nat.le_trans (Nat.le_max_left a b) (ih (max a b))

theorem mem_le_foldl_max (l : List Nat) : ∀ a x : Nat, x ∈ l → x ≤ l.foldl max a := by
  induction l with
  | nil => intro a x hx; exact absurd hx (List.not_mem_nil x)
  | cons b t ih =>
    intro a x hx
    rcases List.mem_cons.1 hx with rfl | hmem
    · exact Nat.le_trans (Nat.le_max_right a x) (init_le_foldl_max t (max a x))
    · exact ih (max a b) x hmem

theorem foldl_max_attained (l : List Nat) :
    ∀ a : Nat, l.foldl max a = a ∨ l.foldl max a ∈ l := by
  induction l with
  | nil => exact fun a => Or.inl rfl
  | cons b t ih =>
    intro a
    rcases ih (max a b) with heq | hmem
    · rw [List.foldl_cons, heq]
      rcases Nat.le_total a b with hab | hba
      · exact Or.inr (by rw [Nat.max_eq_right hab]; exact List.mem_cons_self b t)
      · exact Or.inl (Nat.max_eq_left hba)
    · exact Or.inr (List.mem_cons_of_mem b hmem)

/-- The bounds fold of `findUsedBounds`, once started, computes componentwise
min/max folds over the remaining occupied coordinates. -/
theorem findUsedBounds_fold (l : List (Nat × Nat)) :
    ∀ b0 : Bounds,
      l.foldl
        (fun acc p =>
          match acc with
          | none => some ⟨p.1, p.1, p.2, p.2⟩
          | some b => some ⟨min b.minRow p.1, max b.maxRow p.1,
                            min b.minCol p.2, max b.maxCol p.2⟩)
        (some b0) =
      some ⟨(l.map Prod.fst).foldl min b0.minRow, (l.map Prod.fst).foldl max b0.maxRow,
            (l.map Prod.snd).foldl min b0.minCol, (l.map Prod.snd).foldl max b0.maxCol⟩ := by
  induction l with
  | nil => exact fun b0 => rfl
  | cons p t ih =>
    intro b0
    rw [List.foldl_cons]
    exact ih ⟨min b0.minRow p.1, max b0.maxRow p.1, min b0.minCol p.2, max b0.maxCol p.2⟩

/-- The grid of the C7 concrete scenario: shapes at `(2,2)` and `(4,4)` on
the 5×5 board. -/
def boundsGrid : Grid :=
  writeCell (writeCell emptyGrid 2 2 (some blueSquare)) 4 4 (some blueSquare)

/-- C7: the computed bounds cover every occupied cell and each of the four
boundary values is attained by an occupied cell (the minimal covering
rectangle); concretely, with shapes at `(2,2)` and `(4,4)` the bounds are
`minRow=2, maxRow=4, minCol=2, maxCol=4` and the exported document declares a
3×3-cell canvas at `CELL_PX` pixels per cell. -/
theorem bounds_minimal_and_export_size (g : Grid) :
    (∀ b : Bounds, findUsedBounds g = some b →
      (∀ p ∈ occupiedPositions g,
        b.minRow ≤ p.1 ∧ p.1 ≤ b.maxRow ∧ b.minCol ≤ p.2 ∧ p.2 ≤ b.maxCol) ∧
      ((∃ p ∈ occupiedPositions g, p.1 = b.minRow) ∧
        (∃ p ∈ occupiedPositions g, p.1 = b.maxRow) ∧
        (∃ p ∈ occupiedPositions g, p.2 = b.minCol) ∧
        (∃ p ∈ occupiedPositions g, p.2 = b.maxCol))) ∧
    (findUsedBounds boundsGrid = some ⟨2, 4, 2, 4⟩ ∧
      exportResult boundsGrid = Except.ok (3 * CELL_PX, 3 * CELL_PX)) := by
  refine ⟨?_, by decide, by rfl⟩
  intro b hb
  unfold findUsedBounds at hb
  cases hocc : occupiedPositions g with
  | nil => rw [hocc] at hb; exact absurd hb (by simp)
  | cons q t =>
    rw [hocc, List.foldl_cons] at hb
    rw [findUsedBounds_fold t ⟨q.1, q.1, q.2, q.2⟩] at hb
    have hbeq : b = ⟨(t.map Prod.fst).foldl min q.1, (t.map Prod.fst).foldl max q.1,
        (t.map Prod.snd).foldl min q.2, (t.map Prod.snd).foldl max q.2⟩ :=
      (Option.some.injEq _ _ ▸ hb).symm
    subst hbeq
    constructor
    · intro p hp
      rcases List.mem_cons.1 hp with rfl | hmem
      · exact ⟨foldl_min_le_init _ _, init_le_foldl_max _ _,
          foldl_min_le_init _ _, init_le_foldl_max _ _⟩
      · exact ⟨foldl_min_le_mem _ _ _ (List.mem_map_of_mem Prod.fst hmem),
          mem_le_foldl_max _ _ _ (List.mem_map_of_mem Prod.fst hmem),
          foldl_min_le_mem _ _ _ (List.mem_map_of_mem Prod.snd hmem),
          mem_le_foldl_max _ _ _ (List.mem_map_of_mem Prod.snd hmem)⟩
    · refine ⟨?_, ?_, ?_, ?_⟩
      · rcases foldl_min_attained (t.map Prod.fst) q.1 with heq | hmem
        · exact ⟨q, List.mem_cons_self q t, heq.symm⟩
        · obtain ⟨p, hpt, hpv⟩ := List.mem_map.1 hmem
          exact ⟨p, List.mem_cons_of_mem q hpt, hpv⟩
      · rcases foldl_max_attained (t.map Prod.fst) q.1 with heq | hmem
        · exact ⟨q, List.mem_cons_self q t, heq.symm⟩
        · obtain ⟨p, hpt, hpv⟩ := List.mem_map.1 hmem
          exact ⟨p, List.mem_cons_of_mem q hpt, hpv⟩
      · rcases foldl_min_attained (t.map Prod.snd) q.2 with heq | hmem
        · exact ⟨q, List.mem_cons_self q t, heq.symm⟩
        · obtain ⟨p, hpt, hpv⟩ := List.mem_map.1 hmem
          exact ⟨p, List.mem_cons_of_mem q hpt, hpv⟩
      · rcases foldl_max_attained (t.map Prod.snd) q.2 with heq | hmem
        · exact ⟨q, List.mem_cons_self q t, heq.symm⟩
        · obtain ⟨p, hpt, hpv⟩ := List.mem_map.1 hmem
          exact ⟨p, List.mem_cons_of_mem q hpt, hpv⟩

/-- Witness for C7: the covering property instantiated on the concrete
two-shape board, with its hypothesis discharged by evaluation. -/
theorem bounds_minimal_and_export_size_witness :
    findUsedBounds boundsGrid = some ⟨2, 4, 2, 4⟩ ∧
    ∀ p ∈ occupiedPositions boundsGrid, 2 ≤ p.1 ∧ p.1 ≤ 4 ∧ 2 ≤ p.2 ∧ p.2 ≤ 4 :=
  ⟨by decide,
   fun p hp =>
     ((bounds_minimal_and_export_size boundsGrid).1 ⟨2, 4, 2, 4⟩ (by decide)).1 p hp⟩

/-- A 3-row × 2-column block of blue squares flush against the board's right
edge (rows 0–2, columns 3–4): its 90°-rotated bounding box from the same
top-left origin `(0,3)` would need columns 3–5 and so would not fit. -/
def flushRightGrid : Grid :=
  writeCell (writeCell (writeCell (writeCell (writeCell (writeCell emptyGrid
    0 3 (some blueSquare)) 0 4 (some blueSquare)) 1 3 (some blueSquare))
    1 4 (some blueSquare)) 2 3 (some blueSquare)) 2 4 (some blueSquare)

/-- The group selection of all six cells of `flushRightGrid`. -/
def flushRightSel : List (Nat × Nat) := [(0, 3), (0, 4), (1, 3), (1, 4), (2, 3), (2, 4)]

/-- Counterexample to C3: rotating the flush-right group selection whose
rotated bounding box would not fit is NOT rejected — the grid after the
rotate differs from the grid before it (each member's rotation advanced). -/
theorem group_rotate_flush_right_changes_grid :
    applyRotateToSelection flushRightGrid flushRightSel ≠ flushRightGrid := by
  decide

theorem readCell_applyRotateStep (g : Grid) (p : Nat × Nat) {r c : Nat}
    (hlen : g.length = GRID_SIZE * GRID_SIZE)
    (hp1 : p.1 < GRID_SIZE) (hp2 : p.2 < GRID_SIZE)
    (hr : r < GRID_SIZE) (hc : c < GRID_SIZE) :
    (readCell
        (match readCell g p.1 p.2 with
          | none => g
          | some d => writeCell g p.1 p.2 (some (rotateData d))) r c =
      if (r, c) = p then (readCell g r c).map rotateData else readCell g r c) ∧
    (match readCell g p.1 p.2 with
      | none => g
      | some d => writeCell g p.1 p.2 (some (rotateData d))).length =
      GRID_SIZE * GRID_SIZE := by
  cases hD : readCell g p.1 p.2 with
  | none =>
    refine ⟨?_, hlen⟩
    by_cases h : (r, c) = p
    · rw [if_pos h]
      obtain ⟨rfl, rfl⟩ := Prod.mk.injEq .. ▸ h
      rw [hD]
      rfl
    · rw [if_neg h]
  | some d =>
    refine ⟨?_, by rw [length_writeCell]; exact hlen⟩
    rw [readCell_writeCell g _ hlen hp1 hp2 hr hc]
    by_cases h : (r, c) = p
    · obtain ⟨rfl, rfl⟩ := Prod.mk.injEq .. ▸ h
      rw [if_pos ⟨rfl, rfl⟩, if_pos rfl, hD]
      rfl
    · rw [if_neg (fun hh => h (Prod.ext hh.1 hh.2)), if_neg h]

/-- C3 (amended): the edit-panel group rotate is applied per cell in place —
never rejected, never relocating any cell: each selected occupied cell's
rotation advances by 90 (mod 360) while its position and every other field
stay put, unselected cells are untouched, and the selection itself is not
modified (the operation only produces a new grid).  In particular the
flush-right selection whose rotated bounding box would not fit still has
every member's rotation advanced. -/
theorem group_rotate_applies_per_cell_in_place :
    (∀ (sel : List (Nat × Nat)) (g : Grid),
      g.length = GRID_SIZE * GRID_SIZE →
      (∀ p ∈ sel, p.1 < GRID_SIZE ∧ p.2 < GRID_SIZE) →
      sel.Nodup →
      ∀ r c, r < GRID_SIZE → c < GRID_SIZE →
        readCell (applyRotateToSelection g sel) r c =
          if (r, c) ∈ sel then (readCell g r c).map rotateData
          else readCell g r c) ∧
    (∀ p ∈ flushRightSel,
      readCell (applyRotateToSelection flushRightGrid flushRightSel) p.1 p.2 =
        some (rotateData blueSquare)) := by
  have hmain : ∀ (sel : List (Nat × Nat)) (g : Grid),
      g.length = GRID_SIZE * GRID_SIZE →
      (∀ p ∈ sel, p.1 < GRID_SIZE ∧ p.2 < GRID_SIZE) →
      sel.Nodup →
      ∀ r c, r < GRID_SIZE → c < GRID_SIZE →
        (readCell (applyRotateToSelection g sel) r c =
          if (r, c) ∈ sel then (readCell g r c).map rotateData
          else readCell g r c) ∧
        (applyRotateToSelection g sel).length = GRID_SIZE * GRID_SIZE := by
    intro sel
    induction sel with
    | nil =>
      intro g hlen _ _ r c hr hc
      exact ⟨by rw [if_neg (by simp)]; rfl, hlen⟩
    | cons q rest ih =>
      intro g hlen hin hnodup r c hr hc
      have hq := hin q (List.mem_cons_self _ _)
      have hqrest : q ∉ rest := (List.nodup_cons.1 hnodup).1
      have hstep := readCell_applyRotateStep g q hlen hq.1 hq.2 hr hc
      have hrest := ih _ hstep.2 (fun x hx => hin x (List.mem_cons_of_mem _ hx))
        (List.nodup_cons.1 hnodup).2 r c hr hc
      refine ⟨?_, hrest.2⟩
      rw [show applyRotateToSelection g (q :: rest) =
        applyRotateToSelection
          (match readCell g q.1 q.2 with
            | none => g
            | some d => writeCell g q.1 q.2 (some (rotateData d))) rest from rfl]
      rw [hrest.1, hstep.1]
      by_cases h1 : (r, c) ∈ rest
      · have hne : ¬((r, c) = q) := fun hh => hqrest (hh ▸ h1)
        rw [if_pos h1, if_neg hne, if_pos (List.mem_cons_of_mem _ h1)]
      · rw [if_neg h1]
        by_cases h2 : (r, c) = q
        · rw [if_pos h2, if_pos (List.mem_cons.2 (Or.inl h2))]
        · rw [if_neg h2, if_neg (by
            intro hmem
            rcases List.mem_cons.1 hmem with hh | hh
            · exact h2 hh
            · exact h1 hh)]
  refine ⟨fun sel g hlen hin hnodup r c hr hc =>
    (hmain sel g hlen hin hnodup r c hr hc).1, ?_⟩
  intro p hp
  have hp5 : p.1 < GRID_SIZE ∧ p.2 < GRID_SIZE := by
    fin_cases hp <;> exact ⟨by decide, by decide⟩
  rw [(hmain flushRightSel flushRightGrid (by decide) (by decide) (by decide)
    p.1 p.2 hp5.1 hp5.2).1]
  have hpp : ((p.1, p.2) : Nat × Nat) = p := rfl
  rw [hpp, if_pos hp]
  fin_cases hp <;> rfl

/-- Witness for C3 (amended): evaluated on the flush-right configuration, a
selected cell's rotation advances by 90 in place and an unselected cell is
untouched. -/
theorem group_rotate_applies_per_cell_in_place_witness :
    (flushRightGrid.length = GRID_SIZE * GRID_SIZE ∧ flushRightSel.Nodup) ∧
    readCell (applyRotateToSelection flushRightGrid flushRightSel) 0 3 =
      (if ((0 : Nat), (3 : Nat)) ∈ flushRightSel
        then (readCell flushRightGrid 0 3).map rotateData
        else readCell flushRightGrid 0 3) ∧
    readCell (applyRotateToSelection flushRightGrid flushRightSel) 0 0 =
      (if ((0 : Nat), (0 : Nat)) ∈ flushRightSel
        then (readCell flushRightGrid 0 0).map rotateData
        else readCell flushRightGrid 0 0) :=
  ⟨⟨by decide, by decide⟩,
   (group_rotate_applies_per_cell_in_place).1 flushRightSel flushRightGrid
     (by decide) (by decide) (by decide) 0 3 (by decide) (by decide),
   (group_rotate_applies_per_cell_in_place).1 flushRightSel flushRightGrid
     (by decide) (by decide) (by decide) 0 0 (by decide) (by decide)⟩

end ShapeGrid
